import Mathlib

/-!
# PX4IO supervisory loop and ISR debug channel

A shallow embedding of `apps/px4io/px4io.c` and of
`src/modules/mavstation_firmware/appdebug.c`, with the properties of the
debug-message ring, of the I2C watchdog callout and of the start-up
sequence stated and proved over it.

Conventions of the embedding:

* `uint32_t` and `uint64_t` variables are natural numbers, every
  arithmetic operation on them being reduced modulo `2 ^ 32` or `2 ^ 64`
  as C does;
* the two `uint8_t` ring cursors only ever hold `(x + 1) % NUM_MSG`,
  which is computed in `int` and fits a byte, so no reduction modulo 256
  is written for them;
* a ring slot `char msg[i][..]` is represented by the C string it holds
  (the characters before the terminating NUL);
* operations are taken as atomic: an interrupt does not preempt the
  body of another operation.
-/

namespace Firmware

/-! ## The debug-message ring (px4io.c lines 81-123, appdebug.c lines 13-68) -/

/-- The C string held by one slot of `msg`. -/
abbrev Record := List Char

/-- Number of slots: `#define NUM_MSG 2`. -/
def NUM_MSG : Nat := 2

/-- The static variables of the debug ring:
`msg_counter`, `last_msg_counter`, `msg_next_out`, `msg_next_in`, `msg`. -/
structure Chan where
  msg_counter : Nat
  last_msg_counter : Nat
  msg_next_out : Nat
  msg_next_in : Nat
  msg : Nat → Record

/-- Zero-initialised statics, as the C runtime provides them at start. -/
def Chan.init : Chan :=
  { msg_counter := 0, last_msg_counter := 0, msg_next_out := 0, msg_next_in := 0,
    msg := fun _ => [] }

/-- The values the C variables can hold with every slot access in bounds:
both counters fit 32 bits and both cursors index one of the `NUM_MSG` slots. -/
def Chan.WF (s : Chan) : Prop :=
  s.msg_counter < 2 ^ 32 ∧ s.last_msg_counter < 2 ^ 32 ∧
    s.msg_next_out < NUM_MSG ∧ s.msg_next_in < NUM_MSG

/-- The effect of `vsnprintf(buf, size, fmt, ap)` on the string held by `buf`:
`text` is the expansion of `fmt` with its arguments, of which at most
`size - 1` characters are stored before the terminating NUL. -/
def vsnprintf (size : Nat) (text : Record) : Record :=
  text.take (size - 1)

/-- The function `isr_debug(level, fmt, ...)`.
`size` is `sizeof(msg[0])` (50 in px4io.c, 40 in appdebug.c), `debug_level` the
value read from `debug_level` (px4io.c) or returned by
`slave_registers_get_debug_level()` (appdebug.c), and `text` the expansion of
the format string with its arguments. -/
def isr_debug (size debug_level : Nat) (s : Chan) (level : Nat) (text : Record) : Chan :=
  if level > debug_level then s
  else
    { s with
      msg := Function.update s.msg s.msg_next_in (vsnprintf size text)
      msg_next_in := (s.msg_next_in + 1) % NUM_MSG
      msg_counter := (s.msg_counter + 1) % 2 ^ 32 }

/-- The loop `while (n--) { debug("%s", msg[msg_next_out]); msg_next_out = (msg_next_out+1) % NUM_MSG; }`
of `show_debug_messages`: returns the records passed to `debug`, in order,
and the final value of `msg_next_out`. -/
def show_loop (msg : Nat → Record) : Nat → Nat → List Record × Nat
  | 0, out => ([], out)
  | n + 1, out =>
    let r := show_loop msg n ((out + 1) % NUM_MSG)
    (msg out :: r.1, r.2)

/-- The function `show_debug_messages()`: the new state and the records
passed to `debug`, in the order of the calls. -/
def show_debug_messages (s : Chan) : Chan × List Record :=
  if s.msg_counter ≠ s.last_msg_counter then
    let n := (s.msg_counter + 2 ^ 32 - s.last_msg_counter) % 2 ^ 32
    let n := if n > NUM_MSG then NUM_MSG else n
    let r := show_loop s.msg n s.msg_next_out
    ({ s with last_msg_counter := s.msg_counter, msg_next_out := r.2 }, r.1)
  else (s, [])

/-- A sequence of `isr_debug` calls, each with its level and text. -/
def writes (size debug_level : Nat) (s : Chan) : List (Nat × Record) → Chan
  | [] => s
  | w :: ws => writes size debug_level (isr_debug size debug_level s w.1 w.2) ws

/-! ## Console, callout and I2C collaborators (declared outside this repository part) -/

/-- Control state of `user_start`: bring-up, the `for (;;)` loop, or stopped. -/
inductive Phase where
  | Starting
  | Running
  | Halted
  deriving DecidableEq, Repr

/-- Program state of px4io.c together with what its collaborators observe.
`now` is `hrt_absolute_time()` in microseconds, `loop_overtime_call` the pending
deadline of the callout of that name (`none` when nothing is scheduled),
`fired` the number of times the callout layer has dispatched it,
`i2c_reset_calls` and `i2c_dump_calls` the number of calls of `i2c_reset()` and
`i2c_dump()`, `console` the lines handed to `debug` and `lowsyslog`, and
`last_debug_time` the local variable of `user_start`. -/
structure Sys where
  now : Nat
  loop_overtime_call : Option Nat
  fired : Nat
  i2c_loop_resets : Nat
  i2c_reset_calls : Nat
  i2c_dump_calls : Nat
  debug_level : Nat
  chan : Chan
  console : List Record
  last_debug_time : Nat
  phase : Phase

/-- State at entry of `user_start`: statics zeroed, nothing scheduled. -/
def Sys.boot : Sys :=
  { now := 0, loop_overtime_call := none, fired := 0, i2c_loop_resets := 0,
    i2c_reset_calls := 0, i2c_dump_calls := 0, debug_level := 0, chan := Chan.init,
    console := [], last_debug_time := 0, phase := Phase.Starting }

/-- Modelled from the spec: the console sink behind the `debug` macro of px4io.h and
`lowsyslog` (neither is in the sources at hand); "Console sink: emit_line(text),
best-effort, assumed always available". One call appends one entry. -/
def debug (s : Sys) (text : Record) : Sys :=
  { s with console := s.console ++ [text] }

/-- Modelled from the spec: `hrt_call_after(&loop_overtime_call, delay, loop_overtime, NULL)`
of drv_hrt.h, absent from the sources at hand; "schedules a one-shot fire at now+delay; if
handle already has a pending deadline, it is atomically replaced". -/
def hrt_call_after (s : Sys) (delay : Nat) : Sys :=
  { s with loop_overtime_call := some (s.now + delay) }

/-- External `i2c_dump()`: only the call is recorded. -/
def i2c_dump (s : Sys) : Sys :=
  { s with i2c_dump_calls := s.i2c_dump_calls + 1 }

/-- External `i2c_reset()`: only the call is recorded. -/
def i2c_reset (s : Sys) : Sys :=
  { s with i2c_reset_calls := s.i2c_reset_calls + 1 }

/-! ## px4io.c: the operations on the program state -/

/-- The function `isr_debug` of px4io.c, `sizeof(msg[0]) = 50`, reading the global `debug_level`. -/
def Sys.isr_debug (s : Sys) (level : Nat) (text : Record) : Sys :=
  { s with chan := Firmware.isr_debug 50 s.debug_level s.chan level text }

/-- The function `show_debug_messages` of px4io.c, its `debug` calls going to the console. -/
def Sys.show_debug_messages (s : Sys) : Sys :=
  { s with
    chan := (Firmware.show_debug_messages s.chan).1
    console := s.console ++ (Firmware.show_debug_messages s.chan).2 }

/-- The callback `loop_overtime(arg)` (px4io.c lines 128-135). -/
def loop_overtime (s : Sys) : Sys :=
  let s := debug s "RESETTING\n".toList
  let s := { s with i2c_loop_resets := (s.i2c_loop_resets + 1) % 2 ^ 32 }
  let s := i2c_dump s
  let s := i2c_reset s
  hrt_call_after s 50000

/-- Modelled from the spec: the dispatch of the callout layer (drv_hrt, absent from the
sources at hand) over one microsecond: the clock advances and a one-shot deadline that
has been reached is removed and its callback `loop_overtime` run. -/
def hrt_tick (s : Sys) : Sys :=
  let s := { s with now := s.now + 1 }
  match s.loop_overtime_call with
  | some t =>
    if t ≤ s.now then loop_overtime { s with loop_overtime_call := none, fired := s.fired + 1 }
    else s
  | none => s

/-- The passing of `d` microseconds during which the main task does not run. -/
def elapse : Nat → Sys → Sys
  | 0, s => s
  | d + 1, s => elapse d (hrt_tick s)

/-- The health report at the end of a cycle (px4io.c lines 237-245). `t1` and `t2` are the
values of `hrt_absolute_time()` at the test and at the assignment, `text` the expansion of
`"d:%u s=0x%x a=0x%x f=0x%x r=%u"`. -/
def health_report (t1 t2 : Nat) (text : Record) (s : Sys) : Sys :=
  if (t1 + 2 ^ 64 - s.last_debug_time) % 2 ^ 64 > 1000000 then
    { Sys.isr_debug s 1 text with last_debug_time := t2 }
  else s

/-- One iteration of `for (;;)` in `user_start` (px4io.c lines 222-246). `dt` is the time
from the `hrt_call_after` call until `mixer_tick` has returned (`usleep(20000)` may return
early on a signal or late, and `mixer_tick` may stall); `mixer_tick` and the performance
counter act on state outside this model; the end of the cycle takes no time. -/
def loop_cycle (dt : Nat) (text : Record) (s : Sys) : Sys :=
  let s := hrt_call_after s 30000
  let s := elapse dt s
  let s := Sys.show_debug_messages s
  health_report s.now s.now text s

/-- The first cycles of the endless loop, each with its duration and report text. -/
def main_loop : List (Nat × Record) → Sys → Sys
  | [], s => s
  | c :: cs, s => main_loop cs (loop_cycle c.1 c.2 s)

/-- What the collaborators called during bring-up return: whether each step worked,
and the two values of `mallinfo()` that are printed. -/
structure Startup where
  hrt_init_ok : Bool
  power_servo_ok : Bool
  safety_init_ok : Bool
  up_pwm_servo_init_ok : Bool
  task_create_ok : Bool
  i2c_init_ok : Bool
  sigaction_ok : Bool
  mxordblk : Nat
  fordblks : Nat

/-- The bring-up part of `user_start` (px4io.c lines 153-215), up to the loop. The calls
`hrt_init()`, `POWER_SERVO(true)`, `safety_init()`, `up_pwm_servo_init(0xff)`,
`task_create(...)` and `i2c_init()` are statements whose result is not looked at; only
`sigaction` is tested, and its failure prints a line. -/
def user_start_init (r : Startup) (s : Sys) : Sys :=
  let s := debug s "\nPX4IO: starting\n".toList
  let s := debug s ("free ".toList ++ Nat.toDigits 10 r.mxordblk ++ " largest ".toList ++
    Nat.toDigits 10 r.fordblks ++ "\n".toList)
  let s := debug s ("debug_level=".toList ++ Nat.toDigits 10 s.debug_level ++ "\n".toList)
  if r.sigaction_ok then s
  else debug s "Failed to setup SIGUSR1 handler\n".toList

/-- The function `user_start`, followed for the given first cycles of its loop. -/
def user_start (r : Startup) (cycles : List (Nat × Record)) (s : Sys) : Sys :=
  let s := user_start_init r s
  let last_debug_time := 0
  main_loop cycles { s with last_debug_time := last_debug_time, phase := Phase.Running }

/-! ## appdebug.c: the periodic report -/

/-- State of appdebug.c: the ring and the static `last_debug_time`. -/
structure Dbg where
  chan : Chan
  last_debug_time : Nat

/-- The function `isr_debug_tick()` (appdebug.c lines 72-84), `sizeof(msg[0]) = 40`.
`t1` and `t2` are the values of `hrt_absolute_time()` at the test and at the assignment,
`debug_level` what `slave_registers_get_debug_level()` returns, `text` the expansion of
`"d:%u s=0x%x f=0x%x m=%u"`. -/
def isr_debug_tick (t1 t2 debug_level : Nat) (text : Record) (s : Dbg) : Dbg :=
  if (t1 + 2 ^ 64 - s.last_debug_time) % 2 ^ 64 > 1000 * 1000 then
    { chan := isr_debug 40 debug_level s.chan 1 text, last_debug_time := t2 }
  else s

/-! ## Concrete states and auxiliary notions used in the statements -/

/-- The ring after the writes A, B, C on the zeroed state at debug level 2. -/
def ringABC : Chan :=
  writes 50 2 Chan.init [(1, ['A']), (2, ['B']), (1, ['C'])]

/-- A ring whose `msg_counter` holds the largest 32-bit value. -/
def ringFull : Chan :=
  { Chan.init with msg_counter := 4294967295, last_msg_counter := 4294967295 }

/-- Number of dispatches of a callout due in `a` microseconds while `d` microseconds pass,
the callback re-arming it 50000 microseconds ahead each time. -/
def fires (a d : Nat) : Nat :=
  if d < a then 0 else 1 + (d - a) / 50000

/-- Five cycles of 20 ms followed by one cycle stalled for 65 ms. -/
def stallScenario : List (Nat × Record) :=
  [(20000, []), (20000, []), (20000, []), (20000, []), (20000, []), (65000, [])]

/-- The counters of `s2` account for the dispatches since `s1`: one increment of
`i2c_loop_resets` modulo `2 ^ 32` and one `i2c_reset` call per dispatch. -/
def Accounted (s1 s2 : Sys) : Prop :=
  s1.fired ≤ s2.fired ∧
  s2.i2c_loop_resets % 2 ^ 32 = (s1.i2c_loop_resets + (s2.fired - s1.fired)) % 2 ^ 32 ∧
  s2.i2c_reset_calls = s1.i2c_reset_calls + (s2.fired - s1.fired)

/-- The boot state with the debug level raised to 1. -/
def bootVerbose : Sys :=
  { Sys.boot with debug_level := 1 }

/-- A start-up in which every step fails. -/
def allFail : Startup :=
  { hrt_init_ok := false, power_servo_ok := false, safety_init_ok := false,
    up_pwm_servo_init_ok := false, task_create_ok := false, i2c_init_ok := false,
    sigaction_ok := false, mxordblk := 0, fordblks := 0 }

/-! ## Properties of the debug-message ring -/

theorem show_loop_spec (msg : Nat → Record) (n : Nat) :
    ∀ out, out < NUM_MSG →
      (show_loop msg n out).1 = (List.range n).map (fun i => msg ((out + i) % NUM_MSG)) ∧
      (show_loop msg n out).2 = (out + n) % NUM_MSG := by
  induction n with
  | zero =>
    intro out h
    simp [show_loop, Nat.mod_eq_of_lt h]
  | succ n ih =>
    intro out h
    have hlt : (out + 1) % NUM_MSG < NUM_MSG := Nat.mod_lt _ (by decide)
    obtain ⟨h1, h2⟩ := ih ((out + 1) % NUM_MSG) hlt
    refine ⟨?_, ?_⟩
    · simp only [show_loop, h1, List.range_succ_eq_map, List.map_cons, List.map_map,
        Nat.add_zero, Nat.mod_eq_of_lt h]
      congr 1
      apply List.map_congr_left
      intro i _
      simp only [Function.comp, NUM_MSG] at *
      congr 1
      omega
    · simp only [show_loop, h2, NUM_MSG] at *
      omega

theorem isr_debug_WF (size dl : Nat) (s : Chan) (level : Nat) (text : Record) (h : s.WF) :
    (isr_debug size dl s level text).WF := by
  unfold isr_debug
  split
  · exact h
  · obtain ⟨h1, h2, h3, h4⟩ := h
    refine ⟨Nat.mod_lt _ (by norm_num), h2, h3, Nat.mod_lt _ (by decide)⟩

theorem show_debug_messages_WF (s : Chan) (h : s.WF) : (show_debug_messages s).1.WF := by
  obtain ⟨h1, h2, h3, h4⟩ := h
  unfold show_debug_messages
  split
  · refine ⟨h1, h1, ?_, h4⟩
    simp only [(show_loop_spec s.msg _ s.msg_next_out h3).2]
    exact Nat.mod_lt _ (by decide)
  · exact ⟨h1, h2, h3, h4⟩

theorem show_debug_messages_idle (s : Chan) (h : s.msg_counter = s.last_msg_counter) :
    show_debug_messages s = (s, []) := by
  simp [show_debug_messages, h]

theorem Chan.init_WF : Chan.init.WF := by
  simp [Chan.WF, Chan.init, NUM_MSG]

theorem isr_debug_accept (size dl : Nat) (s : Chan) (level : Nat) (text : Record)
    (h : level ≤ dl) :
    isr_debug size dl s level text =
      { s with
        msg := Function.update s.msg s.msg_next_in (vsnprintf size text)
        msg_next_in := (s.msg_next_in + 1) % NUM_MSG
        msg_counter := (s.msg_counter + 1) % 2 ^ 32 } := by
  unfold isr_debug
  rw [if_neg (by omega)]

/-- Where the claims on delivery do hold: from a well-formed state in which nothing is pending
and the read cursor equals the write cursor, at most `NUM_MSG` accepted writes followed by a
drain print exactly the written records, cut to the slot size, in the order written, and leave
the two cursors equal again. -/
theorem in_step_no_loss (size dl : Nat) (s : Chan) (hwf : s.WF)
    (hstep : s.msg_next_out = s.msg_next_in) (hd : s.msg_counter = s.last_msg_counter)
    (ws : List (Nat × Record)) (hlen : ws.length ≤ NUM_MSG) (hacc : ∀ w ∈ ws, w.1 ≤ dl) :
    (show_debug_messages (writes size dl s ws)).2 = ws.map (fun w => w.2.take (size - 1)) ∧
    (show_debug_messages (writes size dl s ws)).1.msg_next_out =
      (show_debug_messages (writes size dl s ws)).1.msg_next_in := by
  obtain ⟨h1, h2, h3, h4⟩ := hwf
  simp only [NUM_MSG] at h3 h4 hlen
  match ws, hlen, hacc with
  | [], _, _ =>
    simp [writes, show_debug_messages, hd, hstep]
  | [w], _, hacc =>
    have a1 : w.1 ≤ dl := hacc w (by simp)
    simp only [writes, isr_debug_accept size dl s w.1 w.2 a1]
    have hne : (s.msg_counter + 1) % 4294967296 ≠ s.last_msg_counter := by omega
    have hn : ((s.msg_counter + 1) % 4294967296 + 4294967296 - s.last_msg_counter) % 4294967296 = 1 := by
      omega
    simp [show_debug_messages, hne, hn, NUM_MSG, show_loop, hstep, vsnprintf]
  | [w, v], _, hacc =>
    have a1 : w.1 ≤ dl := hacc w (by simp)
    have a2 : v.1 ≤ dl := hacc v (by simp)
    simp only [writes, isr_debug_accept size dl s w.1 w.2 a1]
    rw [isr_debug_accept size dl _ v.1 v.2 a2]
    have hne : (s.msg_counter + 1 + 1) % 4294967296 ≠ s.last_msg_counter := by omega
    have hn : ((s.msg_counter + 1 + 1) % 4294967296 + 4294967296 - s.last_msg_counter)
        % 4294967296 = 2 := by
      omega
    have hx : (s.msg_next_in + 1) % 2 ≠ s.msg_next_in := by omega
    have hy : ((s.msg_next_in + 1) % 2 + 1) % 2 = s.msg_next_in := by omega
    simp [show_debug_messages, hne, hn, NUM_MSG, show_loop, hstep, vsnprintf, Function.update,
      hx, hy, Ne.symm hx]

/-- C1 (evaluation of the code where the claim fails): from the zeroed ring with debug level 2,
the writes A (level 1), B (level 2), C (level 1) followed by one `show_debug_messages`
print C first and then B, for both slot sizes; the records B, C in the order written
are not what is printed. -/
theorem overflow_drain_prints_newest_first :
    (show_debug_messages
        (writes 50 2 Chan.init [(1, ['A']), (2, ['B']), (1, ['C'])])).2 = [['C'], ['B']] ∧
    (show_debug_messages
        (writes 40 2 Chan.init [(1, ['A']), (2, ['B']), (1, ['C'])])).2 = [['C'], ['B']] ∧
    (show_debug_messages
        (writes 50 2 Chan.init [(1, ['A']), (2, ['B']), (1, ['C'])])).2 ≠ [['B'], ['C']] := by
  decide

/-- C2 (evaluation of the code where the claim fails): after the writes A, B, C and a drain,
one further write D followed by a drain prints the stale record C, already printed by the
first drain, and not D. -/
theorem drain_after_overflow_prints_stale :
    (show_debug_messages (writes 50 2
        (show_debug_messages (writes 50 2 Chan.init [(1, ['A']), (2, ['B']), (1, ['C'])])).1
        [(1, ['D'])])).2 = [['C']] ∧
    (show_debug_messages (writes 50 2
        (show_debug_messages (writes 50 2 Chan.init [(1, ['A']), (2, ['B']), (1, ['C'])])).1
        [(1, ['D'])])).2 ≠ [['D']] := by
  decide

/-- C3: for every ring state whose counters fit 32 bits and whose cursors are in bounds,
`show_debug_messages` prints exactly `pending = min ((msg_counter - last_msg_counter) mod 2^32) NUM_MSG`
records, namely the slots `msg_next_out, msg_next_out + 1, ...` taken modulo `NUM_MSG`,
advances `msg_next_out` by `pending` modulo `NUM_MSG`, sets `last_msg_counter` to
`msg_counter`, and leaves `msg_counter`, `msg_next_in` and the slots as they were; when the two
counters are equal it prints nothing and changes nothing, so a second drain right after a
drain is a no-op. -/
theorem show_debug_messages_spec (s : Chan) (hwf : s.WF) :
    (show_debug_messages s).2 =
        (List.range (min (Int.toNat (((s.msg_counter : Int) - s.last_msg_counter) % 2 ^ 32)) NUM_MSG)).map
          (fun i => s.msg ((s.msg_next_out + i) % NUM_MSG)) ∧
    (show_debug_messages s).2.length =
        min (Int.toNat (((s.msg_counter : Int) - s.last_msg_counter) % 2 ^ 32)) NUM_MSG ∧
    (show_debug_messages s).1.msg_next_out =
        (s.msg_next_out +
          min (Int.toNat (((s.msg_counter : Int) - s.last_msg_counter) % 2 ^ 32)) NUM_MSG) % NUM_MSG ∧
    (show_debug_messages s).1.last_msg_counter = s.msg_counter ∧
    (show_debug_messages s).1.msg_counter = s.msg_counter ∧
    (show_debug_messages s).1.msg_next_in = s.msg_next_in ∧
    (show_debug_messages s).1.msg = s.msg ∧
    (s.msg_counter = s.last_msg_counter → show_debug_messages s = (s, [])) ∧
    show_debug_messages (show_debug_messages s).1 = ((show_debug_messages s).1, []) := by
  obtain ⟨h1, h2, h3, h4⟩ := hwf
  have hn : min (Int.toNat (((s.msg_counter : Int) - s.last_msg_counter) % 2 ^ 32)) NUM_MSG =
      (if (s.msg_counter + 2 ^ 32 - s.last_msg_counter) % 2 ^ 32 > NUM_MSG then NUM_MSG
        else (s.msg_counter + 2 ^ 32 - s.last_msg_counter) % 2 ^ 32) := by
    have e : Int.toNat (((s.msg_counter : Int) - s.last_msg_counter) % 2 ^ 32) =
        (s.msg_counter + 2 ^ 32 - s.last_msg_counter) % 2 ^ 32 := by omega
    rw [e]
    split <;> simp only [NUM_MSG] at * <;> omega
  have hlast : (show_debug_messages s).1.last_msg_counter = s.msg_counter := by
    unfold show_debug_messages
    split
    · rfl
    · rename_i hc
      exact (not_not.mp hc).symm
  have hcnt : (show_debug_messages s).1.msg_counter = s.msg_counter := by
    unfold show_debug_messages
    split <;> rfl
  rw [hn]
  by_cases hc : s.msg_counter = s.last_msg_counter
  · have hz : (s.msg_counter + 2 ^ 32 - s.last_msg_counter) % 2 ^ 32 = 0 := by
      rw [hc]; omega
    have hs : show_debug_messages s = (s, []) := show_debug_messages_idle s hc
    simp only [hs, hz, NUM_MSG] at *
    simp [show_debug_messages_idle s hc, Nat.mod_eq_of_lt h3, hc]
  · have hs : show_debug_messages s =
        ({ s with
            last_msg_counter := s.msg_counter
            msg_next_out := (show_loop s.msg
              (if (s.msg_counter + 2 ^ 32 - s.last_msg_counter) % 2 ^ 32 > NUM_MSG then NUM_MSG
                else (s.msg_counter + 2 ^ 32 - s.last_msg_counter) % 2 ^ 32) s.msg_next_out).2 },
          (show_loop s.msg
              (if (s.msg_counter + 2 ^ 32 - s.last_msg_counter) % 2 ^ 32 > NUM_MSG then NUM_MSG
                else (s.msg_counter + 2 ^ 32 - s.last_msg_counter) % 2 ^ 32) s.msg_next_out).1) := by
      simp [show_debug_messages, hc]
    obtain ⟨l1, l2⟩ := show_loop_spec s.msg
      (if (s.msg_counter + 2 ^ 32 - s.last_msg_counter) % 2 ^ 32 > NUM_MSG then NUM_MSG
        else (s.msg_counter + 2 ^ 32 - s.last_msg_counter) % 2 ^ 32) s.msg_next_out h3
    refine ⟨?_, ?_, ?_, hlast, hcnt, ?_, ?_, ?_, ?_⟩
    · rw [hs]; exact l1
    · rw [hs]; simp only [l1, List.length_map, List.length_range]
    · rw [hs]; exact l2
    · rw [hs]
    · rw [hs]
    · intro h; exact absurd h hc
    · exact show_debug_messages_idle _ (by rw [hlast, hcnt])

/-- C3, instance: the ring holding A, B, C after three writes is well formed and its drain
prints the two slots starting at `msg_next_out`. -/
theorem show_debug_messages_spec_witness :
    ringABC.WF ∧
    (show_debug_messages ringABC).2 =
        (List.range (min (Int.toNat (((ringABC.msg_counter : Int) - ringABC.last_msg_counter) % 2 ^ 32))
          NUM_MSG)).map (fun i => ringABC.msg ((ringABC.msg_next_out + i) % NUM_MSG)) ∧
    (show_debug_messages ringABC).1.last_msg_counter = ringABC.msg_counter :=
  have h : ringABC.WF := by
    unfold Chan.WF
    decide
  ⟨h, (show_debug_messages_spec ringABC h).1, (show_debug_messages_spec ringABC h).2.2.2.1⟩

/-- C4 as stated fails where the 32-bit counter is at its maximum: an accepted write
(level 0 at debug level 0) takes `msg_counter` from 4294967295 to 0, not to 4294967296. -/
theorem isr_debug_counter_wraps :
    (isr_debug 50 0 ringFull 0 ['x']).msg_counter = 0 ∧
    (isr_debug 50 0 ringFull 0 ['x']).msg_counter ≠ ringFull.msg_counter + 1 := by
  decide

/-- C4, amended: a call with `level` above the debug level leaves the whole ring state as
it was; a call with `level` at or below it stores the text cut to `size - 1` characters in
slot `msg_next_in` and in no other slot, advances `msg_next_in` by one modulo `NUM_MSG`,
increases `msg_counter` by one modulo `2 ^ 32` (by exactly one below the maximum), and leaves
`msg_next_out` and `last_msg_counter` as they were. -/
theorem isr_debug_spec (size dl : Nat) (s : Chan) (level : Nat) (text : Record) :
    (level > dl → isr_debug size dl s level text = s) ∧
    (level ≤ dl →
      (isr_debug size dl s level text).msg s.msg_next_in = text.take (size - 1) ∧
      (∀ i, i ≠ s.msg_next_in → (isr_debug size dl s level text).msg i = s.msg i) ∧
      (isr_debug size dl s level text).msg_next_in = (s.msg_next_in + 1) % NUM_MSG ∧
      (isr_debug size dl s level text).msg_counter = (s.msg_counter + 1) % 2 ^ 32 ∧
      (s.msg_counter + 1 < 2 ^ 32 →
        (isr_debug size dl s level text).msg_counter = s.msg_counter + 1) ∧
      (isr_debug size dl s level text).msg_next_out = s.msg_next_out ∧
      (isr_debug size dl s level text).last_msg_counter = s.last_msg_counter) := by
  constructor
  · intro h
    simp [isr_debug, h]
  · intro h
    have hn : ¬ level > dl := by omega
    have e : isr_debug size dl s level text =
        { s with
          msg := Function.update s.msg s.msg_next_in (vsnprintf size text)
          msg_next_in := (s.msg_next_in + 1) % NUM_MSG
          msg_counter := (s.msg_counter + 1) % 2 ^ 32 } := by
      unfold isr_debug
      rw [if_neg hn]
    rw [e]
    refine ⟨?_, ?_, rfl, rfl, ?_, rfl, rfl⟩
    · simp [vsnprintf]
    · intro i hi
      simp [Function.update, hi]
    · intro hlt
      exact Nat.mod_eq_of_lt hlt

/-- C4, instances: at debug level 1 a level-2 write changes nothing, and a level-1 write to the
zeroed ring fills slot 0 with the text and moves the write cursor and the counter to 1. -/
theorem isr_debug_spec_witness :
    isr_debug 50 1 Chan.init 2 ['x'] = Chan.init ∧
    (isr_debug 50 1 Chan.init 1 ['x']).msg Chan.init.msg_next_in = List.take (50 - 1) ['x'] ∧
    (isr_debug 50 1 Chan.init 1 ['x']).msg_counter = Chan.init.msg_counter + 1 :=
  ⟨(isr_debug_spec 50 1 Chan.init 2 ['x']).1 (by decide),
    ((isr_debug_spec 50 1 Chan.init 1 ['x']).2 (by decide)).1,
    ((isr_debug_spec 50 1 Chan.init 1 ['x']).2 (by decide)).2.2.2.2.1 (by decide)⟩

/-! ## Properties of the watchdog callout -/

theorem loop_overtime_fields (s : Sys) :
    (loop_overtime s).now = s.now ∧
    (loop_overtime s).loop_overtime_call = some (s.now + 50000) ∧
    (loop_overtime s).fired = s.fired ∧
    (loop_overtime s).i2c_loop_resets = (s.i2c_loop_resets + 1) % 2 ^ 32 ∧
    (loop_overtime s).i2c_reset_calls = s.i2c_reset_calls + 1 ∧
    (loop_overtime s).i2c_dump_calls = s.i2c_dump_calls + 1 ∧
    (loop_overtime s).debug_level = s.debug_level ∧
    (loop_overtime s).chan = s.chan ∧
    (loop_overtime s).last_debug_time = s.last_debug_time ∧
    (loop_overtime s).phase = s.phase := by
  simp [loop_overtime, hrt_call_after, i2c_reset, i2c_dump, debug]

theorem hrt_tick_wait (s : Sys) (t : Nat) (h : s.loop_overtime_call = some t)
    (hlt : s.now + 1 < t) : hrt_tick s = { s with now := s.now + 1 } := by
  have hn : ¬ t ≤ s.now + 1 := by omega
  simp [hrt_tick, h, hn]

theorem hrt_tick_fire (s : Sys) (t : Nat) (h : s.loop_overtime_call = some t)
    (hle : t ≤ s.now + 1) :
    hrt_tick s =
      loop_overtime { s with now := s.now + 1, loop_overtime_call := none, fired := s.fired + 1 } := by
  simp [hrt_tick, h, hle]

theorem hrt_tick_none (s : Sys) (h : s.loop_overtime_call = none) :
    hrt_tick s = { s with now := s.now + 1 } := by
  simp [hrt_tick, h]

theorem elapse_armed (d : Nat) :
    ∀ (s : Sys) (t : Nat), s.loop_overtime_call = some t → s.now < t →
      (elapse d s).fired = s.fired + fires (t - s.now) d ∧
      (elapse d s).i2c_reset_calls = s.i2c_reset_calls + fires (t - s.now) d ∧
      (elapse d s).i2c_dump_calls = s.i2c_dump_calls + fires (t - s.now) d ∧
      (elapse d s).i2c_loop_resets =
        (if fires (t - s.now) d = 0 then s.i2c_loop_resets
          else (s.i2c_loop_resets + fires (t - s.now) d) % 2 ^ 32) ∧
      (elapse d s).now = s.now + d ∧
      (elapse d s).chan = s.chan ∧
      (elapse d s).debug_level = s.debug_level ∧
      (elapse d s).last_debug_time = s.last_debug_time ∧
      (elapse d s).phase = s.phase := by
  induction d with
  | zero =>
    intro s t _ hlt
    have hf : fires (t - s.now) 0 = 0 := by
      unfold fires
      rw [if_pos (by omega)]
    simp [elapse, hf]
  | succ d ih =>
    intro s t h hlt
    by_cases hw : s.now + 1 < t
    · have e := hrt_tick_wait s t h hw
      obtain ⟨a1, a2, a3, a4, a5, a6, a7, a8, a9⟩ :=
        ih { s with now := s.now + 1 } t h (by simpa using hw)
      dsimp only at a1 a2 a3 a4 a5 a6 a7 a8 a9
      have hf : fires (t - (s.now + 1)) d = fires (t - s.now) (d + 1) := by
        unfold fires
        have e1 : d + 1 - (t - s.now) = d - (t - (s.now + 1)) := by omega
        by_cases hd : d < t - (s.now + 1)
        · rw [if_pos hd, if_pos (by omega)]
        · rw [if_neg hd, if_neg (by omega), e1]
      simp only [elapse, e]
      simp only [hf] at a1 a2 a3 a4
      refine ⟨a1, a2, a3, a4, ?_, a6, a7, a8, a9⟩
      rw [a5]
      omega
    · have hle : t ≤ s.now + 1 := by omega
      have e := hrt_tick_fire s t h hle
      obtain ⟨f1, f2, f3, f4, f5, f6, f7, f8, f9, f10⟩ := loop_overtime_fields
        { s with now := s.now + 1, loop_overtime_call := none, fired := s.fired + 1 }
      dsimp only at f1 f2 f3 f4 f5 f6 f7 f8 f9 f10
      obtain ⟨a1, a2, a3, a4, a5, a6, a7, a8, a9⟩ :=
        ih (loop_overtime
            { s with now := s.now + 1, loop_overtime_call := none, fired := s.fired + 1 })
          (s.now + 1 + 50000) f2 (by rw [f1]; omega)
      rw [f1] at a1 a2 a3 a4 a5
      have e2 : s.now + 1 + 50000 - (s.now + 1) = 50000 := by omega
      rw [e2] at a1 a2 a3 a4
      have hf : fires (t - s.now) (d + 1) = 1 + fires 50000 d := by
        unfold fires
        have e3 : t - s.now = 1 := by omega
        rw [e3, if_neg (by omega)]
        by_cases hd : d < 50000
        · rw [if_pos hd]
          have : (d + 1 - 1) / 50000 = 0 := by omega
          omega
        · rw [if_neg hd]
          omega
      simp only [elapse, e, hf]
      refine ⟨by rw [a1, f3]; omega, by rw [a2, f5]; omega, by rw [a3, f6]; omega, ?_,
        by rw [a5]; omega, by rw [a6, f8], by rw [a7, f7], by rw [a8, f9], by rw [a9, f10]⟩
      have hnz : ¬ (1 + fires 50000 d = 0) := by omega
      rw [a4, f4, if_neg hnz]
      by_cases hz : fires 50000 d = 0
      · rw [if_pos hz, hz]
      · rw [if_neg hz]
        omega

theorem health_report_frame (t1 t2 : Nat) (text : Record) (s : Sys) :
    (health_report t1 t2 text s).fired = s.fired ∧
    (health_report t1 t2 text s).i2c_loop_resets = s.i2c_loop_resets ∧
    (health_report t1 t2 text s).i2c_reset_calls = s.i2c_reset_calls ∧
    (health_report t1 t2 text s).phase = s.phase := by
  unfold health_report
  split <;> simp [Sys.isr_debug]

theorem loop_cycle_counts (dt : Nat) (text : Record) (s : Sys) :
    (loop_cycle dt text s).fired = s.fired + fires 30000 dt ∧
    (loop_cycle dt text s).i2c_reset_calls = s.i2c_reset_calls + fires 30000 dt ∧
    (loop_cycle dt text s).i2c_loop_resets =
      (if fires 30000 dt = 0 then s.i2c_loop_resets
        else (s.i2c_loop_resets + fires 30000 dt) % 2 ^ 32) ∧
    (loop_cycle dt text s).phase = s.phase := by
  obtain ⟨a1, a2, _, a4, _, _, _, _, a9⟩ :=
    elapse_armed dt (hrt_call_after s 30000) (s.now + 30000) rfl
      (by simp [hrt_call_after])
  have e : s.now + 30000 - (hrt_call_after s 30000).now = 30000 := by
    simp [hrt_call_after]
  rw [e] at a1 a2 a4
  obtain ⟨h1, h2, h3, h4⟩ := health_report_frame
    (Sys.show_debug_messages (elapse dt (hrt_call_after s 30000))).now
    (Sys.show_debug_messages (elapse dt (hrt_call_after s 30000))).now text
    (Sys.show_debug_messages (elapse dt (hrt_call_after s 30000)))
  unfold loop_cycle
  refine ⟨h1.trans a1, h3.trans a2, h2.trans a4, h4.trans a9⟩

theorem main_loop_append (cs ds : List (Nat × Record)) :
    ∀ s, main_loop (cs ++ ds) s = main_loop ds (main_loop cs s) := by
  induction cs with
  | nil => intro s; rfl
  | cons c cs ih => intro s; simp [main_loop, ih]

theorem main_loop_in_time (cs : List (Nat × Record)) (h : ∀ c ∈ cs, c.1 < 30000) :
    ∀ s, (main_loop cs s).fired = s.fired ∧
      (main_loop cs s).i2c_loop_resets = s.i2c_loop_resets ∧
      (main_loop cs s).i2c_reset_calls = s.i2c_reset_calls ∧
      (main_loop cs s).phase = s.phase := by
  induction cs with
  | nil => intro s; simp [main_loop]
  | cons c cs ih =>
    intro s
    have hc : c.1 < 30000 := h c (List.mem_cons_self _ _)
    have hf : fires 30000 c.1 = 0 := by
      unfold fires
      rw [if_pos hc]
    obtain ⟨a1, a2, a3, a4⟩ := loop_cycle_counts c.1 c.2 s
    rw [hf] at a1 a2 a3
    obtain ⟨b1, b2, b3, b4⟩ :=
      ih (fun x hx => h x (List.mem_cons_of_mem _ hx)) (loop_cycle c.1 c.2 s)
    simp only [main_loop]
    exact ⟨b1.trans a1, b2.trans (by simpa using a3), b3.trans a2, b4.trans a4⟩

theorem user_start_init_frame (r : Startup) (s : Sys) :
    (user_start_init r s).fired = s.fired ∧
    (user_start_init r s).i2c_loop_resets = s.i2c_loop_resets ∧
    (user_start_init r s).i2c_reset_calls = s.i2c_reset_calls ∧
    (user_start_init r s).chan = s.chan ∧
    (user_start_init r s).debug_level = s.debug_level := by
  unfold user_start_init
  split <;> simp [debug]

theorem stallScenario_eval :
    (main_loop (stallScenario.take 5) Sys.boot).i2c_loop_resets = 0 ∧
    (main_loop stallScenario Sys.boot).fired = 1 ∧
    (main_loop stallScenario Sys.boot).i2c_loop_resets = 1 ∧
    (main_loop stallScenario Sys.boot).i2c_reset_calls = 1 := by
  have hin : ∀ c ∈ stallScenario.take 5, c.1 < 30000 := by
    simp [stallScenario]
  obtain ⟨a1, a2, a3, _⟩ := main_loop_in_time (stallScenario.take 5) hin Sys.boot
  have hs : stallScenario = stallScenario.take 5 ++ [(65000, [])] := by
    simp [stallScenario]
  have hf : fires 30000 65000 = 1 := by decide
  obtain ⟨b1, b2, b3, _⟩ :=
    loop_cycle_counts 65000 [] (main_loop (stallScenario.take 5) Sys.boot)
  rw [hf, a1] at b1
  rw [hf, a3] at b2
  rw [hf, a2] at b3
  refine ⟨a2, ?_, ?_, ?_⟩
  · rw [hs, main_loop_append]
    exact b1
  · rw [hs, main_loop_append]
    simpa [Sys.boot] using b3
  · rw [hs, main_loop_append]
    exact b2

/-- C5 as stated fails: with the 30 ms timeout, five cycles of 20 ms leave `i2c_loop_resets`
at 0, and a following stall of 65 ms makes `loop_overtime` run once, so that the counter
and the number of `i2c_reset` calls are 1 and not 2. -/
theorem stall_65ms_resets_once :
    (main_loop (stallScenario.take 5) Sys.boot).i2c_loop_resets = 0 ∧
    (main_loop stallScenario Sys.boot).i2c_loop_resets = 1 ∧
    (main_loop stallScenario Sys.boot).i2c_reset_calls = 1 ∧
    (main_loop stallScenario Sys.boot).i2c_loop_resets ≠ 2 := by
  obtain ⟨a, _, b, c⟩ := stallScenario_eval
  refine ⟨a, b, c, ?_⟩
  rw [b]
  decide

/-- C5, amended: after the loop has armed the callout with 30000 microseconds and then does
not re-arm it for `T > 30000` microseconds, `loop_overtime` has run once 30 ms after the arm
and once more for every further 50 ms (its own re-arm uses 50000), that is
`1 + (T - 30000) / 50000` times; `i2c_loop_resets` (modulo `2 ^ 32`) and the number of
`i2c_reset` calls have grown by that number. -/
theorem watchdog_recovery_count (s : Sys) (T : Nat) (hT : 30000 < T) :
    (elapse T (hrt_call_after s 30000)).fired = s.fired + (1 + (T - 30000) / 50000) ∧
    (elapse T (hrt_call_after s 30000)).i2c_loop_resets =
      (s.i2c_loop_resets + (1 + (T - 30000) / 50000)) % 2 ^ 32 ∧
    (elapse T (hrt_call_after s 30000)).i2c_reset_calls =
      s.i2c_reset_calls + (1 + (T - 30000) / 50000) := by
  obtain ⟨a1, a2, _, a4, _⟩ :=
    elapse_armed T (hrt_call_after s 30000) (s.now + 30000) rfl
      (by simp [hrt_call_after])
  have e : s.now + 30000 - (hrt_call_after s 30000).now = 30000 := by
    simp [hrt_call_after]
  have hf : fires 30000 T = 1 + (T - 30000) / 50000 := by
    unfold fires
    rw [if_neg (by omega)]
  rw [e, hf] at a1 a2 a4
  rw [if_neg (by omega)] at a4
  exact ⟨a1, a4, a2⟩

/-- C5, amended, instance: a stall of 65 ms after an arm at boot gives one recovery. -/
theorem watchdog_recovery_count_witness :
    30000 < 65000 ∧
    (elapse 65000 (hrt_call_after Sys.boot 30000)).i2c_loop_resets =
      (Sys.boot.i2c_loop_resets + (1 + (65000 - 30000) / 50000)) % 2 ^ 32 ∧
    (elapse 65000 (hrt_call_after Sys.boot 30000)).i2c_reset_calls =
      Sys.boot.i2c_reset_calls + (1 + (65000 - 30000) / 50000) :=
  ⟨by decide, (watchdog_recovery_count Sys.boot 65000 (by decide)).2.1,
    (watchdog_recovery_count Sys.boot 65000 (by decide)).2.2⟩

/-- C6: when every cycle of the main loop lasts less than 30000 microseconds from its
`hrt_call_after` to the next one, `loop_overtime` is never dispatched, whatever the number of
cycles: the dispatch count, `i2c_loop_resets` and the number of `i2c_reset` calls keep their
values, and from the boot state `i2c_loop_resets` is still 0. -/
theorem watchdog_liveness (cs : List (Nat × Record)) (h : ∀ c ∈ cs, c.1 < 30000) :
    (∀ s, (main_loop cs s).fired = s.fired ∧
      (main_loop cs s).i2c_loop_resets = s.i2c_loop_resets ∧
      (main_loop cs s).i2c_reset_calls = s.i2c_reset_calls) ∧
    (∀ r, (user_start r cs Sys.boot).fired = 0 ∧
      (user_start r cs Sys.boot).i2c_loop_resets = 0 ∧
      (user_start r cs Sys.boot).i2c_reset_calls = 0) := by
  constructor
  · intro s
    obtain ⟨a1, a2, a3, _⟩ := main_loop_in_time cs h s
    exact ⟨a1, a2, a3⟩
  · intro r
    obtain ⟨f1, f2, f3, _⟩ := user_start_init_frame r Sys.boot
    obtain ⟨a1, a2, a3, _⟩ := main_loop_in_time cs h
      { user_start_init r Sys.boot with last_debug_time := 0, phase := Phase.Running }
    unfold user_start
    exact ⟨a1.trans f1, a2.trans f2, a3.trans f3⟩

/-- C6, instance: a thousand cycles of 20 ms each. -/
theorem watchdog_liveness_witness :
    (∀ c ∈ List.replicate 1000 ((20000, []) : Nat × Record), c.1 < 30000) ∧
    (∀ r, (user_start r (List.replicate 1000 (20000, [])) Sys.boot).fired = 0 ∧
      (user_start r (List.replicate 1000 (20000, [])) Sys.boot).i2c_loop_resets = 0 ∧
      (user_start r (List.replicate 1000 (20000, [])) Sys.boot).i2c_reset_calls = 0) :=
  have h : ∀ c ∈ List.replicate 1000 ((20000, []) : Nat × Record), c.1 < 30000 := by
    intro c hc
    rw [List.eq_of_mem_replicate hc]
    decide
  ⟨h, (watchdog_liveness (List.replicate 1000 (20000, [])) h).2⟩

theorem Accounted.refl (s : Sys) : Accounted s s := by
  simp [Accounted]

theorem Accounted.trans {s1 s2 s3 : Sys} (h12 : Accounted s1 s2) (h23 : Accounted s2 s3) :
    Accounted s1 s3 := by
  obtain ⟨a1, a2, a3⟩ := h12
  obtain ⟨b1, b2, b3⟩ := h23
  refine ⟨by omega, ?_, by omega⟩
  omega

theorem Accounted.of_eq {s1 s2 : Sys} (hf : s2.fired = s1.fired)
    (hr : s2.i2c_loop_resets = s1.i2c_loop_resets)
    (hc : s2.i2c_reset_calls = s1.i2c_reset_calls) : Accounted s1 s2 := by
  simp [Accounted, hf, hr, hc]

theorem hrt_tick_accounted (s : Sys) : Accounted s (hrt_tick s) := by
  cases h : s.loop_overtime_call with
  | none =>
    rw [hrt_tick_none s h]
    exact Accounted.of_eq rfl rfl rfl
  | some t =>
    by_cases hle : t ≤ s.now + 1
    · rw [hrt_tick_fire s t h hle]
      obtain ⟨_, _, f3, f4, f5, _⟩ := loop_overtime_fields
        { s with now := s.now + 1, loop_overtime_call := none, fired := s.fired + 1 }
      dsimp only at f3 f4 f5
      refine ⟨by rw [f3]; omega, ?_, by rw [f5, f3]; omega⟩
      rw [f4, f3]
      have e : s.fired + 1 - s.fired = 1 := by omega
      rw [e, Nat.mod_mod]
    · rw [hrt_tick_wait s t h (by omega)]
      exact Accounted.of_eq rfl rfl rfl

theorem elapse_accounted (d : Nat) : ∀ s, Accounted s (elapse d s) := by
  induction d with
  | zero => intro s; exact Accounted.refl s
  | succ d ih => intro s; exact (hrt_tick_accounted s).trans (ih (hrt_tick s))

theorem loop_cycle_accounted (dt : Nat) (text : Record) (s : Sys) :
    Accounted s (loop_cycle dt text s) := by
  have h1 : Accounted s (hrt_call_after s 30000) := Accounted.of_eq rfl rfl rfl
  have h2 := elapse_accounted dt (hrt_call_after s 30000)
  obtain ⟨f1, f2, f3, _⟩ := health_report_frame
    (Sys.show_debug_messages (elapse dt (hrt_call_after s 30000))).now
    (Sys.show_debug_messages (elapse dt (hrt_call_after s 30000))).now text
    (Sys.show_debug_messages (elapse dt (hrt_call_after s 30000)))
  have h3 : Accounted (elapse dt (hrt_call_after s 30000)) (loop_cycle dt text s) :=
    Accounted.of_eq f1 f2 f3
  exact (h1.trans h2).trans h3

theorem main_loop_accounted (cs : List (Nat × Record)) : ∀ s, Accounted s (main_loop cs s) := by
  induction cs with
  | nil => intro s; exact Accounted.refl s
  | cons c cs ih =>
    intro s
    exact (loop_cycle_accounted c.1 c.2 s).trans (ih (loop_cycle c.1 c.2 s))

theorem main_loop_phase (cs : List (Nat × Record)) : ∀ s, (main_loop cs s).phase = s.phase := by
  induction cs with
  | nil => intro s; rfl
  | cons c cs ih =>
    intro s
    simp only [main_loop]
    rw [ih, (loop_cycle_counts c.1 c.2 s).2.2.2]

/-- C10: every execution of `loop_overtime` increases `i2c_loop_resets` by one modulo `2 ^ 32`,
calls `i2c_reset` once and ends with `loop_overtime_call` pending again; `isr_debug`,
`show_debug_messages`, the re-arm and the health report of the loop body leave
`i2c_loop_resets` as it was; hence over any number of cycles of any duration the counter
equals, modulo `2 ^ 32`, its earlier value plus the number of dispatches, which never
decreases, and the number of `i2c_reset` calls grows by the same number. -/
theorem recovery_event_accounting :
    (∀ s : Sys,
      (loop_overtime s).i2c_loop_resets = (s.i2c_loop_resets + 1) % 2 ^ 32 ∧
      (loop_overtime s).i2c_reset_calls = s.i2c_reset_calls + 1 ∧
      (loop_overtime s).loop_overtime_call = some (s.now + 50000)) ∧
    (∀ (s : Sys) (level : Nat) (text : Record),
      (Sys.isr_debug s level text).i2c_loop_resets = s.i2c_loop_resets) ∧
    (∀ s : Sys, (Sys.show_debug_messages s).i2c_loop_resets = s.i2c_loop_resets) ∧
    (∀ (s : Sys) (delay : Nat), (hrt_call_after s delay).i2c_loop_resets = s.i2c_loop_resets) ∧
    (∀ (s : Sys) (t1 t2 : Nat) (text : Record),
      (health_report t1 t2 text s).i2c_loop_resets = s.i2c_loop_resets) ∧
    (∀ (cs : List (Nat × Record)) (s : Sys),
      s.fired ≤ (main_loop cs s).fired ∧
      (main_loop cs s).i2c_loop_resets % 2 ^ 32 =
        (s.i2c_loop_resets + ((main_loop cs s).fired - s.fired)) % 2 ^ 32 ∧
      (main_loop cs s).i2c_reset_calls =
        s.i2c_reset_calls + ((main_loop cs s).fired - s.fired)) := by
  refine ⟨?_, ?_, ?_, ?_, ?_, ?_⟩
  · intro s
    obtain ⟨_, f2, _, f4, f5, _⟩ := loop_overtime_fields s
    exact ⟨f4, f5, f2⟩
  · intro s level text; rfl
  · intro s; rfl
  · intro s delay; rfl
  · intro s t1 t2 text
    exact (health_report_frame t1 t2 text s).2.1
  · intro cs s
    exact main_loop_accounted cs s

/-! ## The periodic health report -/

theorem elapsed_u64 (t1 last : Nat) (ht : t1 < 2 ^ 64) (hl : last ≤ t1) :
    (t1 + 2 ^ 64 - last) % 2 ^ 64 = t1 - last := by
  omega

/-- C7 as stated fails at debug level 0, the initial value: two seconds after the last report
the report call is made at level 1 and dropped by `isr_debug`, so `msg_counter` stays 0 while
the last-report time is still updated; the same holds for `isr_debug_tick`. -/
theorem health_report_dropped_at_level_zero :
    Sys.boot.debug_level = 0 ∧
    (health_report 2000000 2000000 ['r'] Sys.boot).chan.msg_counter = 0 ∧
    (health_report 2000000 2000000 ['r'] Sys.boot).last_debug_time = 2000000 ∧
    (isr_debug_tick 2000000 2000000 0 ['r'] ⟨Chan.init, 0⟩).chan.msg_counter = 0 ∧
    (isr_debug_tick 2000000 2000000 0 ['r'] ⟨Chan.init, 0⟩).last_debug_time = 2000000 := by
  decide

/-- C7, amended: with the clock below `2 ^ 64` and not behind the last-report time, when more
than 1000000 microseconds have elapsed the last-report time becomes the current time and,
provided the debug level is at least 1, one record is added: `msg_counter` grows by one modulo
`2 ^ 32`, slot `msg_next_in` holds the report text cut to 49 characters (39 in appdebug.c) and
`msg_next_in` advances; at debug level 0 the ring is left as it was. When 1000000 microseconds
or less have elapsed nothing changes. The first half is the loop of px4io.c, the second
`isr_debug_tick` of appdebug.c. -/
theorem health_report_spec (t1 t2 : Nat) (text : Record) (s : Sys) (d : Dbg) (dl : Nat)
    (ht : t1 < 2 ^ 64) (hs : s.last_debug_time ≤ t1) (hd : d.last_debug_time ≤ t1) :
    (1000000 < t1 - s.last_debug_time →
      (health_report t1 t2 text s).last_debug_time = t2 ∧
      (1 ≤ s.debug_level →
        (health_report t1 t2 text s).chan.msg_counter = (s.chan.msg_counter + 1) % 2 ^ 32 ∧
        (health_report t1 t2 text s).chan.msg s.chan.msg_next_in = text.take 49 ∧
        (health_report t1 t2 text s).chan.msg_next_in = (s.chan.msg_next_in + 1) % NUM_MSG) ∧
      (s.debug_level = 0 → (health_report t1 t2 text s).chan = s.chan)) ∧
    (t1 - s.last_debug_time ≤ 1000000 → health_report t1 t2 text s = s) ∧
    (1000000 < t1 - d.last_debug_time →
      (isr_debug_tick t1 t2 dl text d).last_debug_time = t2 ∧
      (1 ≤ dl →
        (isr_debug_tick t1 t2 dl text d).chan.msg_counter = (d.chan.msg_counter + 1) % 2 ^ 32 ∧
        (isr_debug_tick t1 t2 dl text d).chan.msg d.chan.msg_next_in = text.take 39 ∧
        (isr_debug_tick t1 t2 dl text d).chan.msg_next_in = (d.chan.msg_next_in + 1) % NUM_MSG) ∧
      (dl = 0 → (isr_debug_tick t1 t2 dl text d).chan = d.chan)) ∧
    (t1 - d.last_debug_time ≤ 1000000 → isr_debug_tick t1 t2 dl text d = d) := by
  have es := elapsed_u64 t1 s.last_debug_time ht hs
  have ed := elapsed_u64 t1 d.last_debug_time ht hd
  refine ⟨?_, ?_, ?_, ?_⟩
  · intro h
    have hc : (t1 + 2 ^ 64 - s.last_debug_time) % 2 ^ 64 > 1000000 := by rw [es]; exact h
    have e : health_report t1 t2 text s =
        { Sys.isr_debug s 1 text with last_debug_time := t2 } := by
      unfold health_report
      rw [if_pos hc]
    rw [e]
    refine ⟨rfl, ?_, ?_⟩
    · intro hl
      have hn : ¬ 1 > s.debug_level := by omega
      simp [Sys.isr_debug, isr_debug, hn, vsnprintf]
    · intro hl
      simp [Sys.isr_debug, isr_debug, hl]
  · intro h
    have hc : ¬ (t1 + 2 ^ 64 - s.last_debug_time) % 2 ^ 64 > 1000000 := by rw [es]; omega
    unfold health_report
    rw [if_neg hc]
  · intro h
    have hc : (t1 + 2 ^ 64 - d.last_debug_time) % 2 ^ 64 > 1000 * 1000 := by rw [ed]; omega
    have e : isr_debug_tick t1 t2 dl text d =
        { chan := isr_debug 40 dl d.chan 1 text, last_debug_time := t2 } := by
      unfold isr_debug_tick
      rw [if_pos hc]
    rw [e]
    refine ⟨rfl, ?_, ?_⟩
    · intro hl
      have hn : ¬ 1 > dl := by omega
      simp [isr_debug, hn, vsnprintf]
    · intro hl
      simp [isr_debug, hl]
  · intro h
    have hc : ¬ (t1 + 2 ^ 64 - d.last_debug_time) % 2 ^ 64 > 1000 * 1000 := by rw [ed]; omega
    unfold isr_debug_tick
    rw [if_neg hc]

/-- C7, amended, instances: at debug level 1, two seconds after the last report, one record
is added and the last-report time updated; half a second after it, nothing changes. -/
theorem health_report_spec_witness :
    (health_report 2000000 2000001 ['r'] bootVerbose).last_debug_time = 2000001 ∧
    (health_report 2000000 2000001 ['r'] bootVerbose).chan.msg_counter =
      (bootVerbose.chan.msg_counter + 1) % 2 ^ 32 ∧
    health_report 500000 500001 ['r'] bootVerbose = bootVerbose ∧
    (isr_debug_tick 2000000 2000001 1 ['r'] ⟨Chan.init, 0⟩).last_debug_time = 2000001 :=
  ⟨((health_report_spec 2000000 2000001 ['r'] bootVerbose ⟨Chan.init, 0⟩ 1
      (by decide) (by decide) (by decide)).1 (by decide)).1,
    (((health_report_spec 2000000 2000001 ['r'] bootVerbose ⟨Chan.init, 0⟩ 1
      (by decide) (by decide) (by decide)).1 (by decide)).2.1 (by decide)).1,
    (health_report_spec 500000 500001 ['r'] bootVerbose ⟨Chan.init, 0⟩ 1
      (by decide) (by decide) (by decide)).2.1 (by decide),
    ((health_report_spec 2000000 2000001 ['r'] bootVerbose ⟨Chan.init, 0⟩ 1
      (by decide) (by decide) (by decide)).2.2.1 (by decide)).1⟩

/-! ## Start-up -/

/-- C8 as stated fails: when all seven start-up steps fail, `user_start` still reaches its
loop (phase `Running`, not `Halted`), and the only failure that is printed is the one of
`sigaction`. -/
theorem user_start_runs_after_failures :
    (user_start allFail [] Sys.boot).phase = Phase.Running ∧
    (user_start allFail [] Sys.boot).phase ≠ Phase.Halted ∧
    (user_start allFail [] Sys.boot).console =
      ["\nPX4IO: starting\n".toList, "free 0 largest 0\n".toList, "debug_level=0\n".toList,
        "Failed to setup SIGUSR1 handler\n".toList] := by
  decide

/-- C8, amended: `user_start` enters its loop on every start-up run, whatever the start-up
steps returned and for any number of cycles; the results of the timer, servo power, safety,
PWM, task and bus steps have no effect on the run; a failing `sigaction` adds the line
"Failed to setup SIGUSR1 handler" to the console and nothing else. -/
theorem user_start_spec (r : Startup) (cycles : List (Nat × Record)) (s : Sys) :
    (user_start r cycles s).phase = Phase.Running ∧
    (∀ r2 : Startup, r2.sigaction_ok = r.sigaction_ok → r2.mxordblk = r.mxordblk →
      r2.fordblks = r.fordblks → user_start r2 cycles s = user_start r cycles s) ∧
    (r.sigaction_ok = true →
      user_start_init r s = user_start_init { r with sigaction_ok := true } s) ∧
    (r.sigaction_ok = false →
      user_start_init r s =
        debug (user_start_init { r with sigaction_ok := true } s)
          "Failed to setup SIGUSR1 handler\n".toList) := by
  refine ⟨?_, ?_, ?_, ?_⟩
  · unfold user_start
    rw [main_loop_phase]
  · intro r2 h1 h2 h3
    simp [user_start, user_start_init, h1, h2, h3]
  · intro h
    simp [user_start_init, h]
  · intro h
    simp [user_start_init, h]

/-- C8, amended, instance: the run with every step failing and the run with only `sigaction`
failing are the same, both in the loop. -/
theorem user_start_spec_witness :
    (user_start allFail [(20000, [])] Sys.boot).phase = Phase.Running ∧
    user_start { allFail with hrt_init_ok := true, i2c_init_ok := true } [(20000, [])] Sys.boot =
      user_start allFail [(20000, [])] Sys.boot ∧
    user_start_init allFail Sys.boot =
      debug (user_start_init { allFail with sigaction_ok := true } Sys.boot)
        "Failed to setup SIGUSR1 handler\n".toList :=
  ⟨(user_start_spec allFail [(20000, [])] Sys.boot).1,
    (user_start_spec allFail [(20000, [])] Sys.boot).2.1
      { allFail with hrt_init_ok := true, i2c_init_ok := true } rfl rfl rfl,
    (user_start_spec allFail [(20000, [])] Sys.boot).2.2.2 rfl⟩

end Firmware
